import Mathlib

/-!
Shallow embedding of the Aerochain-Stellar aeronautic parts registry
(`src/contracts/piece-aero/src/lib.rs`, Soroban smart contract).

Modelling conventions:
* A Soroban `Address` is an opaque equality-comparable principal; we model it
  as `Nat`.
* Soroban `Map<String, V>` is modelled as an association list
  `List (String × V)` with `mapGet` / `mapSet` / `mapContains` mirroring
  `get` / `set` / `contains_key` (`set` replaces an existing binding in place
  and appends a fresh one).
* Contract instance storage is the record `State` with one field per storage
  key (`ADMINS`, `OEM_ORGS`, `MRO_ORGS`, `PARTS`).  `admins : Option _`
  because `initialize` tests key presence with `has(&ADMINS)`; the other three
  collections are always read through `unwrap_or(empty)`, so a plain list with
  empty default is observationally identical.
* `env.ledger().timestamp()` becomes an explicit `now : Nat` argument of each
  operation that reads it.
* `require_auth` is the host's identity proof and has no storage effect; an
  operation's caller argument is taken to be authenticated.
* Each contract entry point returns `Except Error α × State`, the second
  component being the storage after the call.  Rust early `return Err(..)`
  paths happen before any `storage().set`, hence return the input state.
* `u32` / `u64` values (`total_hours`, `total_cycles`, timestamps) are `Nat`:
  the contract never performs arithmetic on them that could overflow a `u32`
  in any behaviour the claims mention (counters are overwritten, not summed).
* `extend_ttl` and `log!` have no effect on contract-observable state and are
  omitted.
-/

namespace AeroChain

/-- Principals (Soroban `Address`): opaque, equality-comparable. -/
abbrev Address := Nat

/-- `OrgType` from the source. -/
inductive OrgType where
  | OEM
  | MRO
  | Airline
  | Lessor
  | Distributor
deriving DecidableEq

/-- `Organization` from the source. -/
structure Organization where
  id : Address
  name : String
  org_type : OrgType
  certificates : List String
  active : Bool
deriving DecidableEq

/-- `PartStatus` from the source. -/
inductive PartStatus where
  | Active
  | InMaintenance
  | Retired
  | Quarantined
deriving DecidableEq

/-- `AeronauticPart` from the source. -/
structure AeronauticPart where
  uid : String
  part_number : String
  serial_number : String
  manufacturer : Address
  date_of_manufacture : Nat
  current_owner : Address
  status : PartStatus
  total_hours : Nat
  total_cycles : Nat
  last_updated : Nat
  document_hashes : List (String × String)
deriving DecidableEq

/-- `Error` from the source (`contracterror`, discriminants 1..6). -/
inductive Error where
  | NotAuthorized
  | OrgNotRegistered
  | NotAnOEM
  | PartAlreadyExists
  | PartNotFound
  | InvalidInput
deriving DecidableEq

/-- Soroban `Map::get`. -/
def mapGet {α : Type} : List (String × α) → String → Option α
  | [], _ => none
  | (k, v) :: rest, key => if k = key then some v else mapGet rest key

/-- Soroban `Map::set`: replace an existing binding in place, else append. -/
def mapSet {α : Type} : List (String × α) → String → α → List (String × α)
  | [], key, v => [(key, v)]
  | (k, w) :: rest, key, v =>
      if k = key then (key, v) :: rest else (k, w) :: mapSet rest key v

/-- Soroban `Map::contains_key`. -/
def mapContains {α : Type} (m : List (String × α)) (key : String) : Bool :=
  (mapGet m key).isSome

/-- Contract instance storage: the four keyed slots of the source. -/
structure State where
  admins : Option (List Address)
  oem_orgs : List Organization
  mro_orgs : List Organization
  parts : List (String × AeronauticPart)
deriving DecidableEq

/-- Storage of a freshly deployed contract: no key is set. -/
def initState : State :=
  { admins := none, oem_orgs := [], mro_orgs := [], parts := [] }

/-- The linear scan of `ensure_is_admin`: membership of `address` in the
    `ADMINS` vector (empty when the key is unset, per `unwrap_or`). -/
def is_admin_scan (s : State) (address : Address) : Bool :=
  (s.admins.getD []).any (fun admin => decide (admin = address))

/-- `ensure_is_admin` from the source. -/
def ensure_is_admin (s : State) (address : Address) : Except Error Unit :=
  if is_admin_scan s address then Except.ok () else Except.error Error.NotAuthorized

/-- The linear scan of `ensure_is_oem`: some roster entry has this id and is
    active. -/
def is_active_oem_scan (s : State) (address : Address) : Bool :=
  s.oem_orgs.any (fun org => decide (org.id = address) && org.active)

/-- `ensure_is_oem` from the source. -/
def ensure_is_oem (s : State) (address : Address) : Except Error Unit :=
  if is_active_oem_scan s address then Except.ok () else Except.error Error.NotAnOEM

/-- The linear scan over `MRO_ORGS` shared by `ensure_is_mro_or_owner`,
    `ensure_can_add_document` and `ensure_is_mro`. -/
def is_active_mro_scan (s : State) (address : Address) : Bool :=
  s.mro_orgs.any (fun org => decide (org.id = address) && org.active)

/-- `ensure_is_mro_or_owner` from the source. -/
def ensure_is_mro_or_owner (s : State) (address : Address) (part_uid : String) :
    Except Error Unit :=
  let is_mro := is_active_mro_scan s address
  if !is_mro then
    match mapGet s.parts part_uid with
    | some part =>
        if part.current_owner ≠ address then Except.error Error.NotAuthorized
        else Except.ok ()
    | none => Except.error Error.PartNotFound
  else Except.ok ()

/-- `ensure_can_add_document` from the source. -/
def ensure_can_add_document (s : State) (address : Address) (part_uid : String) :
    Except Error Unit :=
  if is_active_mro_scan s address then Except.ok ()
  else if is_active_oem_scan s address then Except.ok ()
  else
    match mapGet s.parts part_uid with
    | some part =>
        if part.current_owner = address then Except.ok ()
        else Except.error Error.NotAuthorized
    | none => Except.error Error.PartNotFound

/-- `ensure_is_mro` from the source. -/
def ensure_is_mro (s : State) (address : Address) : Except Error Unit :=
  if is_active_mro_scan s address then Except.ok ()
  else Except.error Error.OrgNotRegistered

/-- `initialize` from the source (renamed: Lean reserves the original name).
    Tests presence of the `ADMINS` key, then seeds the admin vector and the
    three empty collections. -/
def initRegistry (s : State) (admin : Address) : Except Error Unit × State :=
  if s.admins.isSome then (Except.error Error.InvalidInput, s)
  else
    (Except.ok (),
      { admins := some [admin], oem_orgs := [], mro_orgs := [], parts := [] })

/-- `register_oem` from the source. -/
def register_oem (s : State) (caller : Address) (org_address : Address)
    (name : String) (certificates : List String) : Except Error Unit × State :=
  match ensure_is_admin s caller with
  | Except.error e => (Except.error e, s)
  | Except.ok _ =>
      let org : Organization :=
        { id := org_address, name := name, org_type := OrgType.OEM,
          certificates := certificates, active := true }
      (Except.ok (), { s with oem_orgs := s.oem_orgs ++ [org] })

/-- `register_mro` from the source. -/
def register_mro (s : State) (caller : Address) (org_address : Address)
    (name : String) (certificates : List String) : Except Error Unit × State :=
  match ensure_is_admin s caller with
  | Except.error e => (Except.error e, s)
  | Except.ok _ =>
      let org : Organization :=
        { id := org_address, name := name, org_type := OrgType.MRO,
          certificates := certificates, active := true }
      (Except.ok (), { s with mro_orgs := s.mro_orgs ++ [org] })

/-- `create_part` from the source. -/
def create_part (s : State) (now : Nat) (manufacturer : Address)
    (uid part_number serial_number : String)
    (document_hashes : List (String × String)) : Except Error Unit × State :=
  match ensure_is_oem s manufacturer with
  | Except.error e => (Except.error e, s)
  | Except.ok _ =>
      if mapContains s.parts uid then (Except.error Error.PartAlreadyExists, s)
      else
        let part : AeronauticPart :=
          { uid := uid, part_number := part_number,
            serial_number := serial_number, manufacturer := manufacturer,
            date_of_manufacture := now, current_owner := manufacturer,
            status := PartStatus.Active, total_hours := 0, total_cycles := 0,
            last_updated := now, document_hashes := document_hashes }
        (Except.ok (), { s with parts := mapSet s.parts uid part })

/-- `get_part` from the source. -/
def get_part (s : State) (uid : String) : Except Error AeronauticPart × State :=
  match mapGet s.parts uid with
  | some part => (Except.ok part, s)
  | none => (Except.error Error.PartNotFound, s)

/-- `transfer_ownership` from the source. -/
def transfer_ownership (s : State) (now : Nat) (current_owner : Address)
    (new_owner : Address) (uid : String) : Except Error Unit × State :=
  match mapGet s.parts uid with
  | none => (Except.error Error.PartNotFound, s)
  | some part =>
      if part.current_owner ≠ current_owner then
        (Except.error Error.NotAuthorized, s)
      else
        let updated_part :=
          { part with current_owner := new_owner, last_updated := now }
        (Except.ok (), { s with parts := mapSet s.parts uid updated_part })

/-- `update_part_status` from the source. -/
def update_part_status (s : State) (now : Nat) (authorized_org : Address)
    (uid : String) (new_status : PartStatus) (hours cycles : Nat) :
    Except Error Unit × State :=
  match ensure_is_mro_or_owner s authorized_org uid with
  | Except.error e => (Except.error e, s)
  | Except.ok _ =>
      match mapGet s.parts uid with
      | none => (Except.error Error.PartNotFound, s)
      | some part =>
          let updated_part :=
            { part with status := new_status, total_hours := hours,
                        total_cycles := cycles, last_updated := now }
          (Except.ok (), { s with parts := mapSet s.parts uid updated_part })

/-- `add_document` from the source. -/
def add_document (s : State) (now : Nat) (authorized_org : Address)
    (uid document_name document_hash : String) : Except Error Unit × State :=
  match ensure_can_add_document s authorized_org uid with
  | Except.error e => (Except.error e, s)
  | Except.ok _ =>
      match mapGet s.parts uid with
      | none => (Except.error Error.PartNotFound, s)
      | some part =>
          let updated_part :=
            { part with
                document_hashes :=
                  mapSet part.document_hashes document_name document_hash,
                last_updated := now }
          (Except.ok (), { s with parts := mapSet s.parts uid updated_part })

/-- `get_all_part_uids` from the source (admin-only listing). -/
def get_all_part_uids (s : State) (caller : Address) :
    Except Error (List String) × State :=
  match ensure_is_admin s caller with
  | Except.error e => (Except.error e, s)
  | Except.ok _ =>
      (Except.ok (s.parts.foldl (fun acc kv => acc ++ [kv.1]) []), s)

/-- `get_all_organizations` from the source. -/
def get_all_organizations (s : State) (caller : Address) :
    Except Error (List Organization × List Organization) × State :=
  match ensure_is_admin s caller with
  | Except.error e => (Except.error e, s)
  | Except.ok _ => (Except.ok (s.oem_orgs, s.mro_orgs), s)

/-- `get_global_stats` from the source. -/
def get_global_stats (s : State) (caller : Address) :
    Except Error (Nat × Nat × Nat) × State :=
  match ensure_is_admin s caller with
  | Except.error e => (Except.error e, s)
  | Except.ok _ =>
      (Except.ok (s.parts.length, s.oem_orgs.length, s.mro_orgs.length), s)

/-- `get_my_part_uids` from the source. -/
def get_my_part_uids (s : State) (owner : Address) :
    Except Error (List String) × State :=
  (Except.ok
    (s.parts.foldl
      (fun acc kv =>
        if decide (kv.2.current_owner = owner) then acc ++ [kv.1] else acc)
      []), s)

/-- `get_my_manufactured_parts` from the source. -/
def get_my_manufactured_parts (s : State) (manufacturer : Address) :
    Except Error (List String) × State :=
  match ensure_is_oem s manufacturer with
  | Except.error e => (Except.error e, s)
  | Except.ok _ =>
      (Except.ok
        (s.parts.foldl
          (fun acc kv =>
            if decide (kv.2.manufacturer = manufacturer) then acc ++ [kv.1]
            else acc)
          []), s)

/-- `get_my_parts_by_status` from the source: the admin branch lists every
    part with the given status, the non-admin branch only the caller's. -/
def get_my_parts_by_status (s : State) (caller : Address)
    (status : PartStatus) : Except Error (List String) × State :=
  let is_admin := is_admin_scan s caller
  if is_admin then
    (Except.ok
      (s.parts.foldl
        (fun acc kv =>
          if decide (kv.2.status = status) then acc ++ [kv.1] else acc)
        []), s)
  else
    (Except.ok
      (s.parts.foldl
        (fun acc kv =>
          if decide (kv.2.status = status) && decide (kv.2.current_owner = caller)
          then acc ++ [kv.1] else acc)
        []), s)

/-- `get_parts_in_my_maintenance` from the source. -/
def get_parts_in_my_maintenance (s : State) (mro : Address) :
    Except Error (List String) × State :=
  match ensure_is_mro s mro with
  | Except.error e => (Except.error e, s)
  | Except.ok _ =>
      (Except.ok
        (s.parts.foldl
          (fun acc kv =>
            if decide (kv.2.status = PartStatus.InMaintenance) then acc ++ [kv.1]
            else acc)
          []), s)

/-- `get_my_stats` from the source: (total owned, active, in maintenance,
    retired); `Quarantined` counts towards the total only. -/
def get_my_stats (s : State) (owner : Address) :
    Except Error (Nat × Nat × Nat × Nat) × State :=
  (Except.ok
    (s.parts.foldl
      (fun acc kv =>
        if decide (kv.2.current_owner = owner) then
          match kv.2.status with
          | PartStatus.Active => (acc.1 + 1, acc.2.1 + 1, acc.2.2.1, acc.2.2.2)
          | PartStatus.InMaintenance =>
              (acc.1 + 1, acc.2.1, acc.2.2.1 + 1, acc.2.2.2)
          | PartStatus.Retired => (acc.1 + 1, acc.2.1, acc.2.2.1, acc.2.2.2 + 1)
          | PartStatus.Quarantined => (acc.1 + 1, acc.2.1, acc.2.2.1, acc.2.2.2)
        else acc)
      ((0, 0, 0, 0) : Nat × Nat × Nat × Nat)), s)

/-- One public entry point of the contract together with its arguments. -/
inductive Op where
  | opInit (admin : Address)
  | opRegisterOEM (caller org_address : Address) (name : String)
      (certificates : List String)
  | opRegisterMRO (caller org_address : Address) (name : String)
      (certificates : List String)
  | opCreate (manufacturer : Address) (uid part_number serial_number : String)
      (document_hashes : List (String × String))
  | opGet (uid : String)
  | opTransfer (current_owner new_owner : Address) (uid : String)
  | opUpdateStatus (authorized_org : Address) (uid : String)
      (new_status : PartStatus) (hours cycles : Nat)
  | opAddDocument (authorized_org : Address)
      (uid document_name document_hash : String)
  | opAllUids (caller : Address)
  | opAllOrgs (caller : Address)
  | opGlobalStats (caller : Address)
  | opMyUids (owner : Address)
  | opMyManufactured (manufacturer : Address)
  | opByStatus (caller : Address) (status : PartStatus)
  | opInMaintenance (mro : Address)
  | opMyStats (owner : Address)

/-- Storage effect of one call, invoked at ledger timestamp `now`. -/
def step (now : Nat) (op : Op) (s : State) : State :=
  match op with
  | Op.opInit a => (initRegistry s a).2
  | Op.opRegisterOEM c o n certs => (register_oem s c o n certs).2
  | Op.opRegisterMRO c o n certs => (register_mro s c o n certs).2
  | Op.opCreate m uid pn sn dh => (create_part s now m uid pn sn dh).2
  | Op.opGet uid => (get_part s uid).2
  | Op.opTransfer co no uid => (transfer_ownership s now co no uid).2
  | Op.opUpdateStatus a uid st h c => (update_part_status s now a uid st h c).2
  | Op.opAddDocument a uid dn dhh => (add_document s now a uid dn dhh).2
  | Op.opAllUids c => (get_all_part_uids s c).2
  | Op.opAllOrgs c => (get_all_organizations s c).2
  | Op.opGlobalStats c => (get_global_stats s c).2
  | Op.opMyUids o => (get_my_part_uids s o).2
  | Op.opMyManufactured m => (get_my_manufactured_parts s m).2
  | Op.opByStatus c st => (get_my_parts_by_status s c st).2
  | Op.opInMaintenance m => (get_parts_in_my_maintenance s m).2
  | Op.opMyStats o => (get_my_stats s o).2

/-- Run a trace of timestamped calls from a state. -/
def run (s : State) (tr : List (Nat × Op)) : State :=
  tr.foldl (fun st p => step p.1 p.2 st) s

/-- The host time source is monotonic along the trace, starting no earlier
    than `t0`. -/
def timesMono : Nat → List (Nat × Op) → Prop
  | _, [] => True
  | t0, p :: rest => t0 ≤ p.1 ∧ timesMono p.1 rest

/-- Every stored part's `last_updated` is at most `t`. -/
def luBound (s : State) (t : Nat) : Prop :=
  ∀ uid p, mapGet s.parts uid = some p → p.last_updated ≤ t

/-- Every organization on either roster is active. -/
def OrgsActive (s : State) : Prop :=
  (∀ o ∈ s.oem_orgs, o.active = true) ∧ (∀ o ∈ s.mro_orgs, o.active = true)

/-- Sample active OEM (concrete evaluation states). -/
def exOEM : Organization :=
  { id := 1, name := "Safran", org_type := OrgType.OEM,
    certificates := ["EASA.21G.0001"], active := true }

/-- Sample active MRO. -/
def exMRO : Organization :=
  { id := 2, name := "LHT", org_type := OrgType.MRO,
    certificates := [], active := true }

/-- Sample stored part, created by OEM `1` at time `5`. -/
def exPart : AeronauticPart :=
  { uid := "u1", part_number := "CFM56-5B4", serial_number := "123456",
    manufacturer := 1, date_of_manufacture := 5, current_owner := 1,
    status := PartStatus.Active, total_hours := 0, total_cycles := 0,
    last_updated := 5, document_hashes := [] }

/-- Sample storage: admin `0`, one OEM, one MRO, one part. -/
def exState : State :=
  { admins := some [0], oem_orgs := [exOEM], mro_orgs := [exMRO],
    parts := [("u1", exPart)] }

/-- Storage after `initialize(10)` on a fresh deployment. -/
def cState0 : State := (initRegistry initState 10).2

/-- Storage after admin `10` registers OEM `1`. -/
def cState1 : State := (register_oem cState0 10 1 "Safran" []).2

/-- Storage after OEM `1` creates part `"u"`. -/
def cState2 : State := (create_part cState1 100 1 "u" "pn" "sn" []).2

/-! ### Association-list map lemmas -/

theorem mapGet_mapSet {α : Type} (m : List (String × α)) (k k' : String) (v : α) :
    mapGet (mapSet m k v) k' = if k = k' then some v else mapGet m k' := by
  induction m with
  | nil => simp [mapSet, mapGet]
  | cons hd tl ih =>
      obtain ⟨a, b⟩ := hd
      by_cases hak : a = k
      · subst hak
        by_cases h : a = k'
        · simp [mapSet, mapGet, h]
        · simp [mapSet, mapGet, h]
      · by_cases hak' : a = k'
        · rw [← hak']
          simp [mapSet, mapGet, hak, Ne.symm hak]
        · simp [mapSet, mapGet, hak, hak', ih]

theorem mapGet_mapSet_self {α : Type} (m : List (String × α)) (k : String) (v : α) :
    mapGet (mapSet m k v) k = some v := by
  simp [mapGet_mapSet]

theorem mapContains_mapSet_of {α : Type} {m : List (String × α)} {k' : String}
    (h : mapContains m k' = true) (k : String) (v : α) :
    mapContains (mapSet m k v) k' = true := by
  simp only [mapContains, mapGet_mapSet]
  split
  · simp
  · exact h

/-- The push-back accumulation loops of the query layer compute
    filter-then-map. -/
theorem foldl_push_filter {α β : Type} (f : α → Bool) (g : α → β) :
    ∀ (l : List α) (acc : List β),
      l.foldl (fun acc x => if f x then acc ++ [g x] else acc) acc
        = acc ++ (l.filter f).map g := by
  intro l
  induction l with
  | nil => intro acc; simp
  | cons hd tl ih =>
      intro acc
      cases hf : f hd
      · simp [List.foldl, List.filter_cons, hf, ih]
      · simp [List.foldl, List.filter_cons, hf, ih]

/-! ### Role-scan characterizations -/

theorem is_active_oem_scan_iff (s : State) (a : Address) :
    is_active_oem_scan s a = true ↔
      ∃ o ∈ s.oem_orgs, o.id = a ∧ o.active = true := by
  simp [is_active_oem_scan, List.any_eq_true, Bool.and_eq_true,
    decide_eq_true_eq]

theorem is_active_mro_scan_iff (s : State) (a : Address) :
    is_active_mro_scan s a = true ↔
      ∃ o ∈ s.mro_orgs, o.id = a ∧ o.active = true := by
  simp [is_active_mro_scan, List.any_eq_true, Bool.and_eq_true,
    decide_eq_true_eq]

theorem is_admin_scan_iff (s : State) (a : Address) :
    is_admin_scan s a = true ↔ a ∈ s.admins.getD [] := by
  simp [is_admin_scan, List.any_eq_true, decide_eq_true_eq]

theorem isSome_of_admin_scan {s : State} {a : Address}
    (h : is_admin_scan s a = true) : s.admins.isSome = true := by
  cases hs : s.admins with
  | none => rw [is_admin_scan, hs] at h; simp at h
  | some l => simp

theorem oem_scan_ne_nil {s : State} {a : Address}
    (h : is_active_oem_scan s a = true) : s.oem_orgs ≠ [] := by
  intro hnil
  rw [is_active_oem_scan, hnil] at h
  simp at h

/-! ### Result-state characterizations of the operations -/

theorem initRegistry_snd (s : State) (a : Address) :
    (initRegistry s a).2 = s ∨
    (initRegistry s a).2 =
      { admins := some [a], oem_orgs := [], mro_orgs := [], parts := [] } := by
  by_cases h : s.admins.isSome <;> simp [initRegistry, h]

theorem initRegistry_snd_of_isSome {s : State} (a : Address)
    (h : s.admins.isSome = true) : (initRegistry s a).2 = s := by
  simp [initRegistry, h]

theorem register_oem_snd (s : State) (c o : Address) (n : String)
    (certs : List String) :
    (register_oem s c o n certs).2 = s ∨
    (is_admin_scan s c = true ∧
      (register_oem s c o n certs).2 =
        { s with
            oem_orgs := s.oem_orgs ++
              [{ id := o, name := n, org_type := OrgType.OEM,
                 certificates := certs, active := true }] }) := by
  by_cases h : is_admin_scan s c
  · right
    exact ⟨h, by simp [register_oem, ensure_is_admin, h]⟩
  · left
    rw [Bool.not_eq_true] at h
    simp [register_oem, ensure_is_admin, h]

theorem register_mro_snd (s : State) (c o : Address) (n : String)
    (certs : List String) :
    (register_mro s c o n certs).2 = s ∨
    (is_admin_scan s c = true ∧
      (register_mro s c o n certs).2 =
        { s with
            mro_orgs := s.mro_orgs ++
              [{ id := o, name := n, org_type := OrgType.MRO,
                 certificates := certs, active := true }] }) := by
  by_cases h : is_admin_scan s c
  · right
    exact ⟨h, by simp [register_mro, ensure_is_admin, h]⟩
  · left
    rw [Bool.not_eq_true] at h
    simp [register_mro, ensure_is_admin, h]

theorem create_part_snd (s : State) (now : Nat) (m : Address)
    (uid pn sn : String) (dh : List (String × String)) :
    (create_part s now m uid pn sn dh).2 = s ∨
    ∃ p : AeronauticPart, p.last_updated = now ∧
      (create_part s now m uid pn sn dh).2 =
        { s with parts := mapSet s.parts uid p } := by
  cases hoem : ensure_is_oem s m with
  | error e => left; simp [create_part, hoem]
  | ok u =>
      cases hc : mapContains s.parts uid with
      | true => left; simp [create_part, hoem, hc]
      | false =>
          right
          refine ⟨{ uid := uid, part_number := pn, serial_number := sn,
                    manufacturer := m, date_of_manufacture := now,
                    current_owner := m, status := PartStatus.Active,
                    total_hours := 0, total_cycles := 0, last_updated := now,
                    document_hashes := dh }, rfl, ?_⟩
          simp [create_part, hoem, hc]

theorem get_part_snd (s : State) (uid : String) : (get_part s uid).2 = s := by
  cases h : mapGet s.parts uid <;> simp [get_part, h]

theorem transfer_ownership_snd (s : State) (now : Nat) (x y : Address)
    (uid : String) :
    (transfer_ownership s now x y uid).2 = s ∨
    ∃ p : AeronauticPart, p.last_updated = now ∧
      (transfer_ownership s now x y uid).2 =
        { s with parts := mapSet s.parts uid p } := by
  cases hg : mapGet s.parts uid with
  | none => left; simp [transfer_ownership, hg]
  | some part =>
      by_cases hco : part.current_owner = x
      · right
        refine ⟨{ part with current_owner := y, last_updated := now }, rfl, ?_⟩
        simp [transfer_ownership, hg, hco]
      · left
        simp [transfer_ownership, hg, hco]

theorem update_part_status_snd (s : State) (now : Nat) (a : Address)
    (uid : String) (st : PartStatus) (hrs cyc : Nat) :
    (update_part_status s now a uid st hrs cyc).2 = s ∨
    ∃ p : AeronauticPart, p.last_updated = now ∧
      (update_part_status s now a uid st hrs cyc).2 =
        { s with parts := mapSet s.parts uid p } := by
  cases hens : ensure_is_mro_or_owner s a uid with
  | error e => left; simp [update_part_status, hens]
  | ok u =>
      cases hg : mapGet s.parts uid with
      | none => left; simp [update_part_status, hens, hg]
      | some part =>
          right
          refine ⟨{ part with
                    status := st, total_hours := hrs,
                    total_cycles := cyc, last_updated := now }, rfl, ?_⟩
          simp [update_part_status, hens, hg]

theorem add_document_snd (s : State) (now : Nat) (a : Address)
    (uid dn dhh : String) :
    (add_document s now a uid dn dhh).2 = s ∨
    ∃ p : AeronauticPart, p.last_updated = now ∧
      (add_document s now a uid dn dhh).2 =
        { s with parts := mapSet s.parts uid p } := by
  cases hens : ensure_can_add_document s a uid with
  | error e => left; simp [add_document, hens]
  | ok u =>
      cases hg : mapGet s.parts uid with
      | none => left; simp [add_document, hens, hg]
      | some part =>
          right
          refine ⟨{ part with
                    document_hashes := mapSet part.document_hashes dn dhh,
                    last_updated := now }, rfl, ?_⟩
          simp [add_document, hens, hg]

theorem get_all_part_uids_snd (s : State) (c : Address) :
    (get_all_part_uids s c).2 = s := by
  cases h : ensure_is_admin s c <;> simp [get_all_part_uids, h]

theorem get_all_organizations_snd (s : State) (c : Address) :
    (get_all_organizations s c).2 = s := by
  cases h : ensure_is_admin s c <;> simp [get_all_organizations, h]

theorem get_global_stats_snd (s : State) (c : Address) :
    (get_global_stats s c).2 = s := by
  cases h : ensure_is_admin s c <;> simp [get_global_stats, h]

theorem get_my_part_uids_snd (s : State) (o : Address) :
    (get_my_part_uids s o).2 = s := rfl

theorem get_my_manufactured_parts_snd (s : State) (m : Address) :
    (get_my_manufactured_parts s m).2 = s := by
  cases h : ensure_is_oem s m <;> simp [get_my_manufactured_parts, h]

theorem get_my_parts_by_status_snd (s : State) (c : Address)
    (st : PartStatus) : (get_my_parts_by_status s c st).2 = s := by
  cases h : is_admin_scan s c <;> simp [get_my_parts_by_status, h]

theorem get_parts_in_my_maintenance_snd (s : State) (m : Address) :
    (get_parts_in_my_maintenance s m).2 = s := by
  cases h : ensure_is_mro s m <;> simp [get_parts_in_my_maintenance, h]

theorem get_my_stats_snd (s : State) (o : Address) :
    (get_my_stats s o).2 = s := rfl

/-! ### Step-level shape lemmas -/

theorem run_nil (s : State) : run s [] = s := rfl

theorem run_cons (s : State) (p : Nat × Op) (tr : List (Nat × Op)) :
    run s (p :: tr) = run (step p.1 p.2 s) tr := rfl

/-- Every call either keeps the parts map, wipes it (fresh initialization,
    possible only while the `ADMINS` key is unset), or writes exactly one
    part stamped with the call's timestamp. -/
theorem step_parts_shape (t : Nat) (op : Op) (s : State) :
    (step t op s).parts = s.parts ∨
      ((step t op s).parts = [] ∧ s.admins = none) ∨
      ∃ u p, p.last_updated = t ∧ (step t op s).parts = mapSet s.parts u p := by
  cases op with
  | opInit a =>
      cases hadm : s.admins with
      | none =>
          refine Or.inr (Or.inl ⟨?_, rfl⟩)
          simp [step, initRegistry, hadm]
      | some l =>
          left
          simp [step, initRegistry, hadm]
  | opRegisterOEM c o n certs =>
      rcases register_oem_snd s c o n certs with h | ⟨_, h⟩ <;> rw [step, h]
      · exact Or.inl rfl
      · exact Or.inl rfl
  | opRegisterMRO c o n certs =>
      rcases register_mro_snd s c o n certs with h | ⟨_, h⟩ <;> rw [step, h]
      · exact Or.inl rfl
      · exact Or.inl rfl
  | opCreate m uid pn sn dh =>
      rcases create_part_snd s t m uid pn sn dh with h | ⟨p, hlu, h⟩ <;>
        rw [step, h]
      · exact Or.inl rfl
      · exact Or.inr (Or.inr ⟨uid, p, hlu, rfl⟩)
  | opGet uid => rw [step, get_part_snd]; exact Or.inl rfl
  | opTransfer x y uid =>
      rcases transfer_ownership_snd s t x y uid with h | ⟨p, hlu, h⟩ <;>
        rw [step, h]
      · exact Or.inl rfl
      · exact Or.inr (Or.inr ⟨uid, p, hlu, rfl⟩)
  | opUpdateStatus a uid st hrs cyc =>
      rcases update_part_status_snd s t a uid st hrs cyc with h | ⟨p, hlu, h⟩ <;>
        rw [step, h]
      · exact Or.inl rfl
      · exact Or.inr (Or.inr ⟨uid, p, hlu, rfl⟩)
  | opAddDocument a uid dn dhh =>
      rcases add_document_snd s t a uid dn dhh with h | ⟨p, hlu, h⟩ <;>
        rw [step, h]
      · exact Or.inl rfl
      · exact Or.inr (Or.inr ⟨uid, p, hlu, rfl⟩)
  | opAllUids c => rw [step, get_all_part_uids_snd]; exact Or.inl rfl
  | opAllOrgs c => rw [step, get_all_organizations_snd]; exact Or.inl rfl
  | opGlobalStats c => rw [step, get_global_stats_snd]; exact Or.inl rfl
  | opMyUids o => rw [step, get_my_part_uids_snd]; exact Or.inl rfl
  | opMyManufactured m =>
      rw [step, get_my_manufactured_parts_snd]; exact Or.inl rfl
  | opByStatus c st =>
      rw [step, get_my_parts_by_status_snd]; exact Or.inl rfl
  | opInMaintenance m =>
      rw [step, get_parts_in_my_maintenance_snd]; exact Or.inl rfl
  | opMyStats o => rw [step, get_my_stats_snd]; exact Or.inl rfl

/-- Every call keeps each roster, wipes it (fresh initialization), or appends
    one organization with `active = true`. -/
theorem step_rosters_shape (t : Nat) (op : Op) (s : State) :
    ((step t op s).oem_orgs = s.oem_orgs ∨ (step t op s).oem_orgs = [] ∨
      ∃ o : Organization, o.active = true ∧
        (step t op s).oem_orgs = s.oem_orgs ++ [o])
    ∧ ((step t op s).mro_orgs = s.mro_orgs ∨ (step t op s).mro_orgs = [] ∨
      ∃ o : Organization, o.active = true ∧
        (step t op s).mro_orgs = s.mro_orgs ++ [o]) := by
  cases op with
  | opInit a =>
      rcases initRegistry_snd s a with h | h <;> rw [step, h]
      · exact ⟨Or.inl rfl, Or.inl rfl⟩
      · exact ⟨Or.inr (Or.inl rfl), Or.inr (Or.inl rfl)⟩
  | opRegisterOEM c o n certs =>
      rcases register_oem_snd s c o n certs with h | ⟨_, h⟩ <;> rw [step, h]
      · exact ⟨Or.inl rfl, Or.inl rfl⟩
      · exact ⟨Or.inr (Or.inr ⟨_, rfl, rfl⟩), Or.inl rfl⟩
  | opRegisterMRO c o n certs =>
      rcases register_mro_snd s c o n certs with h | ⟨_, h⟩ <;> rw [step, h]
      · exact ⟨Or.inl rfl, Or.inl rfl⟩
      · exact ⟨Or.inl rfl, Or.inr (Or.inr ⟨_, rfl, rfl⟩)⟩
  | opCreate m uid pn sn dh =>
      rcases create_part_snd s t m uid pn sn dh with h | ⟨p, _, h⟩ <;>
        rw [step, h] <;> exact ⟨Or.inl rfl, Or.inl rfl⟩
  | opGet uid => rw [step, get_part_snd]; exact ⟨Or.inl rfl, Or.inl rfl⟩
  | opTransfer x y uid =>
      rcases transfer_ownership_snd s t x y uid with h | ⟨p, _, h⟩ <;>
        rw [step, h] <;> exact ⟨Or.inl rfl, Or.inl rfl⟩
  | opUpdateStatus a uid st hrs cyc =>
      rcases update_part_status_snd s t a uid st hrs cyc with h | ⟨p, _, h⟩ <;>
        rw [step, h] <;> exact ⟨Or.inl rfl, Or.inl rfl⟩
  | opAddDocument a uid dn dhh =>
      rcases add_document_snd s t a uid dn dhh with h | ⟨p, _, h⟩ <;>
        rw [step, h] <;> exact ⟨Or.inl rfl, Or.inl rfl⟩
  | opAllUids c =>
      rw [step, get_all_part_uids_snd]; exact ⟨Or.inl rfl, Or.inl rfl⟩
  | opAllOrgs c =>
      rw [step, get_all_organizations_snd]; exact ⟨Or.inl rfl, Or.inl rfl⟩
  | opGlobalStats c =>
      rw [step, get_global_stats_snd]; exact ⟨Or.inl rfl, Or.inl rfl⟩
  | opMyUids o =>
      rw [step, get_my_part_uids_snd]; exact ⟨Or.inl rfl, Or.inl rfl⟩
  | opMyManufactured m =>
      rw [step, get_my_manufactured_parts_snd]; exact ⟨Or.inl rfl, Or.inl rfl⟩
  | opByStatus c st =>
      rw [step, get_my_parts_by_status_snd]; exact ⟨Or.inl rfl, Or.inl rfl⟩
  | opInMaintenance m =>
      rw [step, get_parts_in_my_maintenance_snd]
      exact ⟨Or.inl rfl, Or.inl rfl⟩
  | opMyStats o =>
      rw [step, get_my_stats_snd]; exact ⟨Or.inl rfl, Or.inl rfl⟩

/-- Registration always appends an active organization; no call deactivates
    one. -/
theorem step_OrgsActive (t : Nat) (op : Op) (s : State) (h : OrgsActive s) :
    OrgsActive (step t op s) := by
  obtain ⟨h1, h2⟩ := h
  obtain ⟨ho, hm⟩ := step_rosters_shape t op s
  constructor
  · rcases ho with he | he | ⟨o, hoa, he⟩ <;> rw [he]
    · exact h1
    · intro o hmem; simp at hmem
    · intro x hx
      rcases List.mem_append.mp hx with hx | hx
      · exact h1 x hx
      · rw [List.mem_singleton] at hx; subst hx; exact hoa
  · rcases hm with he | he | ⟨o, hoa, he⟩ <;> rw [he]
    · exact h2
    · intro o hmem; simp at hmem
    · intro x hx
      rcases List.mem_append.mp hx with hx | hx
      · exact h2 x hx
      · rw [List.mem_singleton] at hx; subst hx; exact hoa

theorem run_OrgsActive (tr : List (Nat × Op)) :
    ∀ s, OrgsActive s → OrgsActive (run s tr) := by
  induction tr with
  | nil => intro s h; exact h
  | cons hd tl ih =>
      intro s h
      rw [run_cons]
      exact ih _ (step_OrgsActive hd.1 hd.2 s h)

/-- A nonempty OEM roster forces the `ADMINS` key to be set, preserved call
    by call. -/
theorem step_InvAdm (t : Nat) (op : Op) (s : State)
    (h : s.oem_orgs ≠ [] → s.admins.isSome = true) :
    (step t op s).oem_orgs ≠ [] → (step t op s).admins.isSome = true := by
  cases op with
  | opInit a =>
      cases hadm : s.admins with
      | none => intro _; simp [step, initRegistry, hadm]
      | some l => rw [step, initRegistry_snd_of_isSome a (by simp [hadm])]; exact h
  | opRegisterOEM c o n certs =>
      rcases register_oem_snd s c o n certs with hsnd | ⟨hadm, hsnd⟩ <;>
        rw [step, hsnd]
      · exact h
      · intro _; exact isSome_of_admin_scan hadm
  | opRegisterMRO c o n certs =>
      rcases register_mro_snd s c o n certs with hsnd | ⟨_, hsnd⟩ <;>
        rw [step, hsnd]
      · exact h
      · exact h
  | opCreate m uid pn sn dh =>
      rcases create_part_snd s t m uid pn sn dh with hsnd | ⟨p, _, hsnd⟩ <;>
        rw [step, hsnd]
      · exact h
      · exact h
  | opGet uid => rw [step, get_part_snd]; exact h
  | opTransfer x y uid =>
      rcases transfer_ownership_snd s t x y uid with hsnd | ⟨p, _, hsnd⟩ <;>
        rw [step, hsnd]
      · exact h
      · exact h
  | opUpdateStatus a uid st hrs cyc =>
      rcases update_part_status_snd s t a uid st hrs cyc with
        hsnd | ⟨p, _, hsnd⟩ <;> rw [step, hsnd]
      · exact h
      · exact h
  | opAddDocument a uid dn dhh =>
      rcases add_document_snd s t a uid dn dhh with hsnd | ⟨p, _, hsnd⟩ <;>
        rw [step, hsnd]
      · exact h
      · exact h
  | opAllUids c => rw [step, get_all_part_uids_snd]; exact h
  | opAllOrgs c => rw [step, get_all_organizations_snd]; exact h
  | opGlobalStats c => rw [step, get_global_stats_snd]; exact h
  | opMyUids o => rw [step, get_my_part_uids_snd]; exact h
  | opMyManufactured m => rw [step, get_my_manufactured_parts_snd]; exact h
  | opByStatus c st => rw [step, get_my_parts_by_status_snd]; exact h
  | opInMaintenance m => rw [step, get_parts_in_my_maintenance_snd]; exact h
  | opMyStats o => rw [step, get_my_stats_snd]; exact h

theorem run_InvAdm (tr : List (Nat × Op)) :
    ∀ s, (s.oem_orgs ≠ [] → s.admins.isSome = true) →
      ((run s tr).oem_orgs ≠ [] → (run s tr).admins.isSome = true) := by
  induction tr with
  | nil => intro s h; exact h
  | cons hd tl ih =>
      intro s h
      rw [run_cons]
      exact ih _ (step_InvAdm hd.1 hd.2 s h)

/-- Once the registry is initialized and a uid is stored, every later call
    keeps the `ADMINS` key set and the uid present. -/
theorem step_Persist (t : Nat) (op : Op) (s : State) (uid : String)
    (h1 : s.admins.isSome = true) (h2 : mapContains s.parts uid = true) :
    (step t op s).admins.isSome = true ∧
      mapContains (step t op s).parts uid = true := by
  constructor
  · cases op with
    | opInit a => rw [step, initRegistry_snd_of_isSome a h1]; exact h1
    | opRegisterOEM c o n certs =>
        rcases register_oem_snd s c o n certs with hsnd | ⟨_, hsnd⟩ <;>
          rw [step, hsnd] <;> exact h1
    | opRegisterMRO c o n certs =>
        rcases register_mro_snd s c o n certs with hsnd | ⟨_, hsnd⟩ <;>
          rw [step, hsnd] <;> exact h1
    | opCreate m uid2 pn sn dh =>
        rcases create_part_snd s t m uid2 pn sn dh with hsnd | ⟨p, _, hsnd⟩ <;>
          rw [step, hsnd] <;> exact h1
    | opGet uid2 => rw [step, get_part_snd]; exact h1
    | opTransfer x y uid2 =>
        rcases transfer_ownership_snd s t x y uid2 with hsnd | ⟨p, _, hsnd⟩ <;>
          rw [step, hsnd] <;> exact h1
    | opUpdateStatus a uid2 st hrs cyc =>
        rcases update_part_status_snd s t a uid2 st hrs cyc with
          hsnd | ⟨p, _, hsnd⟩ <;> rw [step, hsnd] <;> exact h1
    | opAddDocument a uid2 dn dhh =>
        rcases add_document_snd s t a uid2 dn dhh with hsnd | ⟨p, _, hsnd⟩ <;>
          rw [step, hsnd] <;> exact h1
    | opAllUids c => rw [step, get_all_part_uids_snd]; exact h1
    | opAllOrgs c => rw [step, get_all_organizations_snd]; exact h1
    | opGlobalStats c => rw [step, get_global_stats_snd]; exact h1
    | opMyUids o => rw [step, get_my_part_uids_snd]; exact h1
    | opMyManufactured m =>
        rw [step, get_my_manufactured_parts_snd]; exact h1
    | opByStatus c st => rw [step, get_my_parts_by_status_snd]; exact h1
    | opInMaintenance m =>
        rw [step, get_parts_in_my_maintenance_snd]; exact h1
    | opMyStats o => rw [step, get_my_stats_snd]; exact h1
  · rcases step_parts_shape t op s with hp | ⟨_, hnone⟩ | ⟨u, p, _, hp⟩
    · rw [hp]; exact h2
    · rw [hnone] at h1; simp at h1
    · rw [hp]; exact mapContains_mapSet_of h2 u p

theorem run_Persist (tr : List (Nat × Op)) :
    ∀ s uid, s.admins.isSome = true → mapContains s.parts uid = true →
      (run s tr).admins.isSome = true ∧
        mapContains (run s tr).parts uid = true := by
  induction tr with
  | nil => intro s uid h1 h2; exact ⟨h1, h2⟩
  | cons hd tl ih =>
      intro s uid h1 h2
      rw [run_cons]
      obtain ⟨h1', h2'⟩ := step_Persist hd.1 hd.2 s uid h1 h2
      exact ih _ uid h1' h2'

/-- Along a trace with monotone timestamps, any part found afterwards either
    was already there unchanged or carries a stamp at least the trace's
    starting time. -/
theorem run_lu_lower (tr : List (Nat × Op)) : ∀ (t0 : Nat) (s : State),
    timesMono t0 tr → ∀ uid p', mapGet (run s tr).parts uid = some p' →
      mapGet s.parts uid = some p' ∨ t0 ≤ p'.last_updated := by
  induction tr with
  | nil => intro t0 s _ uid p' h; rw [run_nil] at h; exact Or.inl h
  | cons hd tl ih =>
      intro t0 s hm uid p' h
      obtain ⟨hm1, hm2⟩ := hm
      rw [run_cons] at h
      rcases ih hd.1 (step hd.1 hd.2 s) hm2 uid p' h with hmid | hle
      · rcases step_parts_shape hd.1 hd.2 s with hp | ⟨hp, _⟩ | ⟨u, p, hlu, hp⟩
        · rw [hp] at hmid; exact Or.inl hmid
        · rw [hp] at hmid; simp [mapGet] at hmid
        · rw [hp, mapGet_mapSet] at hmid
          by_cases hu : u = uid
          · rw [if_pos hu] at hmid
            right
            have hpp := Option.some.inj hmid
            rw [← hpp, hlu]
            exact hm1
          · rw [if_neg hu] at hmid; exact Or.inl hmid
      · exact Or.inr (le_trans hm1 hle)

/-- Concrete bound for witnesses: the sample store's single part is stamped
    at time 5. -/
theorem luBound_exState : luBound exState 5 := by
  intro uid p h
  have hh : mapGet exState.parts uid =
      if "u1" = uid then some exPart else none := by
    simp [exState, mapGet]
  rw [hh] at h
  split at h
  · have hp := Option.some.inj h
    rw [← hp]
    decide
  · exact absurd h (by simp)

/-! ### Claim theorems -/

/-- C1: for a part uid present in the store, `transfer_ownership(X, Y, uid)`
    succeeds iff `X` is the part's current owner at call time; on success the
    owner becomes `Y` and `last_updated` is set to the current time; on
    failure the store is unchanged; a wrong owner yields `NotAuthorized`, a
    missing uid yields `PartNotFound`, and the two errors are distinct. -/
theorem transfer_ownership_auth_correct (s : State) (now : Nat)
    (x y : Address) (uid : String) :
    (∀ part, mapGet s.parts uid = some part →
      (((transfer_ownership s now x y uid).1 = Except.ok ()) ↔
          x = part.current_owner)
      ∧ (x = part.current_owner →
          transfer_ownership s now x y uid =
            (Except.ok (),
              { s with
                  parts := mapSet s.parts uid
                      ({ part with current_owner := y, last_updated := now }) }))
      ∧ (x ≠ part.current_owner →
          transfer_ownership s now x y uid =
            (Except.error Error.NotAuthorized, s)))
    ∧ (mapGet s.parts uid = none →
        transfer_ownership s now x y uid = (Except.error Error.PartNotFound, s))
    ∧ Error.NotAuthorized ≠ Error.PartNotFound := by
  refine ⟨?_, ?_, by decide⟩
  · intro part hp
    by_cases hco : part.current_owner = x
    · refine ⟨?_, ?_, ?_⟩
      · simp [transfer_ownership, hp, hco]
      · intro _
        simp [transfer_ownership, hp, hco]
      · intro hne
        exact absurd hco.symm hne
    · refine ⟨?_, ?_, ?_⟩
      · simp [transfer_ownership, hp, hco]
        exact fun h => hco h.symm
      · intro h
        exact absurd h.symm hco
      · intro _
        simp [transfer_ownership, hp, hco]
  · intro hn
    simp [transfer_ownership, hn]

/-- C1 witness: on the sample store, owner `1` transfers `"u1"` to `3`. -/
theorem transfer_ownership_auth_witness :
    (transfer_ownership exState 9 1 3 "u1").1 = Except.ok () := by
  have h := ((transfer_ownership_auth_correct exState 9 1 3 "u1").1 exPart rfl).2.1 rfl
  rw [h]

/-- C3: an active registered OEM creating a fresh uid succeeds, and the
    inserted record has `status = Active`, zero counters,
    `current_owner = manufacturer = caller` and
    `date_of_manufacture = last_updated = now`; a caller that is not an
    active registered OEM fails with `NotAnOEM`. -/
theorem create_part_oem_correct (s : State) (now : Nat) (m : Address)
    (uid part_number serial_number : String) (dh : List (String × String)) :
    (is_active_oem_scan s m = true → mapContains s.parts uid = false →
      create_part s now m uid part_number serial_number dh =
        (Except.ok (),
          { s with
              parts := mapSet s.parts uid
                  ({ uid := uid, part_number := part_number,
                     serial_number := serial_number, manufacturer := m,
                     date_of_manufacture := now, current_owner := m,
                     status := PartStatus.Active, total_hours := 0,
                     total_cycles := 0, last_updated := now,
                     document_hashes := dh }) }))
    ∧ (is_active_oem_scan s m = false →
        create_part s now m uid part_number serial_number dh =
          (Except.error Error.NotAnOEM, s)) := by
  constructor
  · intro hoem hc
    simp [create_part, ensure_is_oem, hoem, hc]
  · intro hoem
    simp [create_part, ensure_is_oem, hoem]

/-- C3 witness: OEM `1` creates fresh uid `"u2"` on the sample store. -/
theorem create_part_oem_witness :
    (create_part exState 7 1 "u2" "p2" "s2" []).1 = Except.ok () := by
  have h := (create_part_oem_correct exState 7 1 "u2" "p2" "s2" []).1 rfl rfl
  rw [h]

/-- C4: for an existing part, `update_part_status` succeeds iff the caller is
    an active registered MRO or the part's current owner; on success it
    overwrites `status`, `total_hours`, `total_cycles` with the supplied
    absolute values and sets `last_updated` to the current time. -/
theorem update_part_status_auth_correct (s : State) (now : Nat)
    (caller : Address) (uid : String) (st : PartStatus) (hours cycles : Nat)
    (part : AeronauticPart) (hp : mapGet s.parts uid = some part) :
    (((update_part_status s now caller uid st hours cycles).1 = Except.ok ())
      ↔ (is_active_mro_scan s caller = true ∨ part.current_owner = caller))
    ∧ ((is_active_mro_scan s caller = true ∨ part.current_owner = caller) →
        update_part_status s now caller uid st hours cycles =
          (Except.ok (),
            { s with
                parts := mapSet s.parts uid
                    ({ part with status := st, total_hours := hours,
                                 total_cycles := cycles,
                                 last_updated := now }) })) := by
  cases hmro : is_active_mro_scan s caller with
  | false =>
      by_cases hown : part.current_owner = caller
      · constructor
        · simp [update_part_status, ensure_is_mro_or_owner, hmro, hp, hown]
        · intro _
          simp [update_part_status, ensure_is_mro_or_owner, hmro, hp, hown]
      · constructor
        · simp [update_part_status, ensure_is_mro_or_owner, hmro, hp, hown]
        · intro h
          rcases h with h | h
          · exact absurd h (by simp [hmro])
          · exact absurd h hown
  | true =>
      constructor
      · simp [update_part_status, ensure_is_mro_or_owner, hmro, hp]
      · intro _
        simp [update_part_status, ensure_is_mro_or_owner, hmro, hp]

/-- C4 witness: owner `1` (not an MRO) updates `"u1"` on the sample store. -/
theorem update_part_status_auth_witness :
    (update_part_status exState 9 1 "u1" PartStatus.InMaintenance 100 7).1 =
      Except.ok () := by
  have h := (update_part_status_auth_correct exState 9 1 "u1"
    PartStatus.InMaintenance 100 7 exPart rfl).2 (Or.inr rfl)
  rw [h]

/-- C5: each of the five part-store operations is atomic — on every input it
    either returns a specific error together with the unchanged input
    storage, or its authorization/existence checks pass and the full set of
    field changes is applied in one write: `create_part` inserts the complete
    fresh record, `transfer_ownership` rewrites owner and stamp,
    `update_part_status` rewrites status, both counters and stamp,
    `add_document` upserts the document hash and rewrites the stamp (and
    `get_part` never mutates). There is no partial-application state. -/
theorem part_store_ops_atomic (s : State) :
    (∀ now m uid pn sn dh,
      (∃ e, create_part s now m uid pn sn dh = (Except.error e, s)) ∨
      (ensure_is_oem s m = Except.ok () ∧ mapContains s.parts uid = false ∧
        create_part s now m uid pn sn dh =
          (Except.ok (),
            { s with
                parts := mapSet s.parts uid
                    ({ uid := uid, part_number := pn, serial_number := sn,
                       manufacturer := m, date_of_manufacture := now,
                       current_owner := m, status := PartStatus.Active,
                       total_hours := 0, total_cycles := 0,
                       last_updated := now, document_hashes := dh }) })))
    ∧ (∀ uid,
      (∃ e, get_part s uid = (Except.error e, s)) ∨
      (∃ part, mapGet s.parts uid = some part ∧
        get_part s uid = (Except.ok part, s)))
    ∧ (∀ now x y uid,
      (∃ e, transfer_ownership s now x y uid = (Except.error e, s)) ∨
      (∃ part, mapGet s.parts uid = some part ∧ part.current_owner = x ∧
        transfer_ownership s now x y uid =
          (Except.ok (),
            { s with
                parts := mapSet s.parts uid
                    ({ part with current_owner := y,
                                 last_updated := now }) })))
    ∧ (∀ now a uid st hrs cyc,
      (∃ e, update_part_status s now a uid st hrs cyc = (Except.error e, s)) ∨
      (∃ part, mapGet s.parts uid = some part ∧
        ensure_is_mro_or_owner s a uid = Except.ok () ∧
        update_part_status s now a uid st hrs cyc =
          (Except.ok (),
            { s with
                parts := mapSet s.parts uid
                    ({ part with status := st, total_hours := hrs,
                                 total_cycles := cyc,
                                 last_updated := now }) })))
    ∧ (∀ now a uid dn dhh,
      (∃ e, add_document s now a uid dn dhh = (Except.error e, s)) ∨
      (∃ part, mapGet s.parts uid = some part ∧
        ensure_can_add_document s a uid = Except.ok () ∧
        add_document s now a uid dn dhh =
          (Except.ok (),
            { s with
                parts := mapSet s.parts uid
                    ({ part with
                        document_hashes :=
                          mapSet part.document_hashes dn dhh,
                        last_updated := now }) }))) := by
  refine ⟨?_, ?_, ?_, ?_, ?_⟩
  · intro now m uid pn sn dh
    cases hoem : ensure_is_oem s m with
    | error e => exact Or.inl ⟨e, by simp [create_part, hoem]⟩
    | ok u =>
        cases hc : mapContains s.parts uid with
        | true =>
            exact Or.inl ⟨Error.PartAlreadyExists, by
              simp [create_part, hoem, hc]⟩
        | false =>
            refine Or.inr ⟨rfl, rfl, ?_⟩
            simp [create_part, hoem, hc]
  · intro uid
    cases hg : mapGet s.parts uid with
    | none => exact Or.inl ⟨Error.PartNotFound, by simp [get_part, hg]⟩
    | some part => exact Or.inr ⟨part, rfl, by simp [get_part, hg]⟩
  · intro now x y uid
    cases hg : mapGet s.parts uid with
    | none =>
        exact Or.inl ⟨Error.PartNotFound, by simp [transfer_ownership, hg]⟩
    | some part =>
        by_cases hco : part.current_owner = x
        · refine Or.inr ⟨part, rfl, hco, ?_⟩
          simp [transfer_ownership, hg, hco]
        · exact Or.inl ⟨Error.NotAuthorized, by
            simp [transfer_ownership, hg, hco]⟩
  · intro now a uid st hrs cyc
    cases hens : ensure_is_mro_or_owner s a uid with
    | error e => exact Or.inl ⟨e, by simp [update_part_status, hens]⟩
    | ok u =>
        cases hg : mapGet s.parts uid with
        | none =>
            exact Or.inl ⟨Error.PartNotFound, by
              simp [update_part_status, hens, hg]⟩
        | some part =>
            refine Or.inr ⟨part, rfl, rfl, ?_⟩
            simp [update_part_status, hens, hg]
  · intro now a uid dn dhh
    cases hens : ensure_can_add_document s a uid with
    | error e => exact Or.inl ⟨e, by simp [add_document, hens]⟩
    | ok u =>
        cases hg : mapGet s.parts uid with
        | none =>
            exact Or.inl ⟨Error.PartNotFound, by
              simp [add_document, hens, hg]⟩
        | some part =>
            refine Or.inr ⟨part, rfl, rfl, ?_⟩
            simp [add_document, hens, hg]

/-- C5 witness: a transfer of a missing uid on the sample store falls in the
    error horn and leaves the storage as is. -/
theorem part_store_ops_atomic_witness :
    (transfer_ownership exState 9 5 6 "zz").2 = exState := by
  rcases (part_store_ops_atomic exState).2.2.1 9 5 6 "zz" with
    ⟨e, he⟩ | ⟨part, hg, _, _⟩
  · rw [he]
  · rw [show mapGet exState.parts "zz" = none from rfl] at hg
    cases hg

/-- C8: `get_my_parts_by_status` returns every stored uid with the requested
    status when the caller is an administrator, and exactly the caller-owned
    uids with that status otherwise. -/
theorem parts_by_status_scope_correct (s : State) (caller : Address)
    (status : PartStatus) :
    (is_admin_scan s caller = true →
      get_my_parts_by_status s caller status =
        (Except.ok
          ((s.parts.filter (fun kv => decide (kv.2.status = status))).map
            (fun kv => kv.1)), s))
    ∧ (is_admin_scan s caller = false →
      get_my_parts_by_status s caller status =
        (Except.ok
          ((s.parts.filter (fun kv =>
              decide (kv.2.status = status) &&
                decide (kv.2.current_owner = caller))).map
            (fun kv => kv.1)), s)) := by
  constructor
  · intro h
    simp only [get_my_parts_by_status, h, if_true]
    rw [foldl_push_filter
      (fun kv : String × AeronauticPart => decide (kv.2.status = status))
      (fun kv => kv.1)]
    simp
  · intro h
    simp only [get_my_parts_by_status, h, Bool.false_eq_true, if_false]
    rw [foldl_push_filter
      (fun kv : String × AeronauticPart =>
        decide (kv.2.status = status) && decide (kv.2.current_owner = caller))
      (fun kv => kv.1)]
    simp

/-- C8 witness: admin `0` sees the active part of the sample store. -/
theorem parts_by_status_scope_witness :
    get_my_parts_by_status exState 0 PartStatus.Active =
      (Except.ok ["u1"], exState) := by
  have h := (parts_by_status_scope_correct exState 0 PartStatus.Active).1 rfl
  rw [h]
  rfl

/-- C10: `create_part` checks the OEM role before the uid-collision check —
    a caller that is not an active registered OEM always gets `NotAnOEM`,
    even when the uid already exists; an OEM hitting an existing uid gets
    `PartAlreadyExists`; both failures leave the store unchanged. -/
theorem create_part_check_order_correct (s : State) (now : Nat) (m : Address)
    (uid part_number serial_number : String) (dh : List (String × String)) :
    (is_active_oem_scan s m = false →
      create_part s now m uid part_number serial_number dh =
        (Except.error Error.NotAnOEM, s))
    ∧ (is_active_oem_scan s m = true → mapContains s.parts uid = true →
      create_part s now m uid part_number serial_number dh =
        (Except.error Error.PartAlreadyExists, s))
    ∧ Error.NotAnOEM ≠ Error.PartAlreadyExists := by
  refine ⟨?_, ?_, by decide⟩
  · intro hoem
    simp [create_part, ensure_is_oem, hoem]
  · intro hoem hc
    simp [create_part, ensure_is_oem, hoem, hc]

/-- C10 witness: non-OEM `9` creating the already stored uid `"u1"` gets
    `NotAnOEM`, not `PartAlreadyExists`. -/
theorem create_part_check_order_witness :
    create_part exState 7 9 "u1" "p" "s" [] =
      (Except.error Error.NotAnOEM, exState) :=
  (create_part_check_order_correct exState 7 9 "u1" "p" "s" []).1 rfl

/-- C6 counterexample: a second `initialize` on the concrete initialized
    state returns `InvalidInput` — the contract's `Error` enum has no
    `AlreadyInitialized` variant at all. -/
theorem init_twice_counterexample :
    initRegistry initState 7 =
      (Except.ok (),
        { admins := some [7], oem_orgs := [], mro_orgs := [], parts := [] })
    ∧ initRegistry
        { admins := some [7], oem_orgs := [], mro_orgs := [], parts := [] } 8 =
      (Except.error Error.InvalidInput,
        { admins := some [7], oem_orgs := [], mro_orgs := [], parts := [] }) :=
  ⟨rfl, rfl⟩

/-- C6 (amended): calling `initialize` on an already-initialized registry
    fails with `InvalidInput` (the source's generic precondition error; no
    `AlreadyInitialized` variant exists) and leaves the storage unchanged. -/
theorem init_twice_invalid_input (s : State) (a : Address)
    (h : s.admins.isSome = true) :
    initRegistry s a = (Except.error Error.InvalidInput, s) := by
  simp [initRegistry, h]

/-- C6 witness: re-initializing the sample store fails with `InvalidInput`. -/
theorem init_twice_invalid_input_witness :
    initRegistry exState 8 = (Except.error Error.InvalidInput, exState) :=
  init_twice_invalid_input exState 8 rfl

/-- C9: in every state reachable from a fresh deployment through the public
    entry points, every organization on the OEM roster and on the MRO roster
    has `active = true`; consequently the role checks accept every registered
    organization, i.e. their inactive-organization denial branch never
    fires. -/
theorem orgs_always_active (tr : List (Nat × Op)) :
    (∀ o ∈ (run initState tr).oem_orgs, o.active = true)
    ∧ (∀ o ∈ (run initState tr).mro_orgs, o.active = true)
    ∧ (∀ a, (∃ o ∈ (run initState tr).oem_orgs, o.id = a) →
        ensure_is_oem (run initState tr) a = Except.ok ())
    ∧ (∀ a, (∃ o ∈ (run initState tr).mro_orgs, o.id = a) →
        ensure_is_mro (run initState tr) a = Except.ok ()) := by
  have hinit : OrgsActive initState := by
    constructor
    · intro o h; simp [initState] at h
    · intro o h; simp [initState] at h
  obtain ⟨h1, h2⟩ := run_OrgsActive tr initState hinit
  refine ⟨h1, h2, ?_, ?_⟩
  · rintro a ⟨o, hmem, hid⟩
    have hsc : is_active_oem_scan (run initState tr) a = true :=
      (is_active_oem_scan_iff _ a).mpr ⟨o, hmem, hid, h1 o hmem⟩
    simp [ensure_is_oem, hsc]
  · rintro a ⟨o, hmem, hid⟩
    have hsc : is_active_mro_scan (run initState tr) a = true :=
      (is_active_mro_scan_iff _ a).mpr ⟨o, hmem, hid, h2 o hmem⟩
    simp [ensure_is_mro, hsc]

/-- C9 witness: after initialize and one OEM registration, `ensure_is_oem`
    accepts the registered organization. -/
theorem orgs_always_active_witness :
    ensure_is_oem
      (run initState [(0, Op.opInit 0), (1, Op.opRegisterOEM 0 1 "Safran" [])])
      1 = Except.ok () := by
  refine (orgs_always_active
    [(0, Op.opInit 0), (1, Op.opRegisterOEM 0 1 "Safran" [])]).2.2.1 1 ?_
  exact ⟨{ id := 1, name := "Safran", org_type := OrgType.OEM,
           certificates := [], active := true }, by decide, rfl⟩

/-- C7: along any trace whose host timestamps are monotone (and bound the
    stamps already stored), each part's `last_updated` never decreases; and
    each mutating operation that touches a part (`transfer_ownership`,
    `update_part_status`, `add_document`) stamps it with the current time on
    success. -/
theorem last_updated_monotone (tr : List (Nat × Op)) (t0 : Nat) (s : State)
    (hm : timesMono t0 tr) (hb : luBound s t0) :
    (∀ uid p p', mapGet s.parts uid = some p →
      mapGet (run s tr).parts uid = some p' →
      p.last_updated ≤ p'.last_updated)
    ∧ (∀ s2 now x y uid,
        (transfer_ownership s2 now x y uid).1 = Except.ok () →
        ∃ p', mapGet (transfer_ownership s2 now x y uid).2.parts uid = some p'
          ∧ p'.last_updated = now)
    ∧ (∀ s2 now a uid st hrs cyc,
        (update_part_status s2 now a uid st hrs cyc).1 = Except.ok () →
        ∃ p', mapGet (update_part_status s2 now a uid st hrs cyc).2.parts uid
            = some p' ∧ p'.last_updated = now)
    ∧ (∀ s2 now a uid dn dhh,
        (add_document s2 now a uid dn dhh).1 = Except.ok () →
        ∃ p', mapGet (add_document s2 now a uid dn dhh).2.parts uid = some p'
          ∧ p'.last_updated = now) := by
  refine ⟨?_, ?_, ?_, ?_⟩
  · intro uid p p' hpre hpost
    rcases run_lu_lower tr t0 s hm uid p' hpost with hsame | hge
    · rw [hpre] at hsame
      rw [Option.some.inj hsame]
    · exact le_trans (hb uid p hpre) hge
  · intro s2 now x y uid h
    cases hg : mapGet s2.parts uid with
    | none => simp [transfer_ownership, hg] at h
    | some part =>
        by_cases hco : part.current_owner = x
        · refine ⟨{ part with current_owner := y, last_updated := now },
            ?_, rfl⟩
          simp [transfer_ownership, hg, hco, mapGet_mapSet_self]
        · simp [transfer_ownership, hg, hco] at h
  · intro s2 now a uid st hrs cyc h
    cases hens : ensure_is_mro_or_owner s2 a uid with
    | error e => simp [update_part_status, hens] at h
    | ok u =>
        cases hg : mapGet s2.parts uid with
        | none => simp [update_part_status, hens, hg] at h
        | some part =>
            refine ⟨{ part with
                      status := st, total_hours := hrs,
                      total_cycles := cyc, last_updated := now }, ?_, rfl⟩
            simp [update_part_status, hens, hg, mapGet_mapSet_self]
  · intro s2 now a uid dn dhh h
    cases hens : ensure_can_add_document s2 a uid with
    | error e => simp [add_document, hens] at h
    | ok u =>
        cases hg : mapGet s2.parts uid with
        | none => simp [add_document, hens, hg] at h
        | some part =>
            refine ⟨{ part with
                      document_hashes := mapSet part.document_hashes dn dhh,
                      last_updated := now }, ?_, rfl⟩
            simp [add_document, hens, hg, mapGet_mapSet_self]

/-- C7 witness: transferring the sample part at time 9 can only raise its
    stamp from 5. -/
theorem last_updated_monotone_witness :
    exPart.last_updated ≤
      ({ exPart with current_owner := 3, last_updated := 9 } :
        AeronauticPart).last_updated := by
  have h := (last_updated_monotone [(9, Op.opTransfer 1 3 "u1")] 5 exState
    ⟨by decide, trivial⟩ luBound_exState).1 "u1" exPart
    ({ exPart with current_owner := 3, last_updated := 9 }) rfl rfl
  exact h

/-- C2 (amended): once a part with some uid has been created in a reachable
    state, the uid stays present across every later trace of public calls
    (there is no delete), and any later `create_part` with the same uid fails
    leaving the store unchanged — with `PartAlreadyExists` when the caller is
    an active registered OEM, with `NotAnOEM` otherwise. -/
theorem uid_never_reused (tr0 : List (Nat × Op)) (now : Nat) (m : Address)
    (uid pn sn : String) (dh : List (String × String)) (s1 : State)
    (hok : create_part (run initState tr0) now m uid pn sn dh =
      (Except.ok (), s1))
    (tr : List (Nat × Op)) :
    mapContains (run s1 tr).parts uid = true
    ∧ (∀ now2 m2 pn2 sn2 dh2,
        is_active_oem_scan (run s1 tr) m2 = true →
        create_part (run s1 tr) now2 m2 uid pn2 sn2 dh2 =
          (Except.error Error.PartAlreadyExists, run s1 tr))
    ∧ (∀ now2 m2 pn2 sn2 dh2,
        is_active_oem_scan (run s1 tr) m2 = false →
        create_part (run s1 tr) now2 m2 uid pn2 sn2 dh2 =
          (Except.error Error.NotAnOEM, run s1 tr)) := by
  have hinv := run_InvAdm tr0 initState (by intro h; exact absurd rfl h)
  by_cases hoem : is_active_oem_scan (run initState tr0) m = true
  · by_cases hc : mapContains (run initState tr0).parts uid = true
    · rw [create_part, ensure_is_oem, if_pos hoem, hc] at hok
      simp at hok
    · rw [Bool.not_eq_true] at hc
      rw [create_part, ensure_is_oem, if_pos hoem, hc] at hok
      simp only [Bool.false_eq_true, if_false, Prod.mk.injEq, true_and] at hok
      have h1 : s1.admins.isSome = true := by
        rw [← hok]
        exact hinv (oem_scan_ne_nil hoem)
      have h2 : mapContains s1.parts uid = true := by
        rw [← hok]
        simp [mapContains, mapGet_mapSet_self]
      obtain ⟨_, hcontains⟩ := run_Persist tr s1 uid h1 h2
      refine ⟨hcontains, ?_, ?_⟩
      · intro now2 m2 pn2 sn2 dh2 hoem2
        simp [create_part, ensure_is_oem, hoem2, hcontains]
      · intro now2 m2 pn2 sn2 dh2 hoem2
        simp [create_part, ensure_is_oem, hoem2]
  · rw [Bool.not_eq_true] at hoem
    rw [create_part, ensure_is_oem, hoem] at hok
    simp at hok

/-- C2 counterexample: after OEM `1` creates uid `"u"`, a second create of
    `"u"` by the non-OEM caller `2` fails with `NotAnOEM`, not with
    `PartAlreadyExists` as the claim states for every later create call. -/
theorem uid_reuse_counterexample :
    (create_part cState1 100 1 "u" "pn" "sn" []).1 = Except.ok ()
    ∧ create_part cState2 101 2 "u" "pn2" "sn2" [] =
        (Except.error Error.NotAnOEM, cState2)
    ∧ Error.NotAnOEM ≠ Error.PartAlreadyExists :=
  ⟨rfl, rfl, by decide⟩

/-- C2 witness: uid `"u"` is still present after a later transfer, on the
    concrete run that created it. -/
theorem uid_never_reused_witness :
    mapContains (run cState2 [(200, Op.opTransfer 1 3 "u")]).parts "u" =
      true := by
  exact (uid_never_reused
    [(0, Op.opInit 10), (1, Op.opRegisterOEM 10 1 "Safran" [])]
    100 1 "u" "pn" "sn" [] cState2 rfl [(200, Op.opTransfer 1 3 "u")]).1

end AeroChain
